import Mathlib

/-!
Verification of the now-screening retrieval pipeline
(`src/apps/api/main.go`): cache lookup, freshness decision, conditional
extraction, transactional cache replace, fuzzy title matching, response
shaping.

The Go functions are embedded shallowly:
* machine state (the `movies` table) is an explicit list of rows,
* time is a natural-number timestamp passed explicitly (`NOW()` in SQL),
* external effects (the database round trips inside a transaction, the
  headless-browser run of `chromedp.Run`) are driven by explicit
  parameters: a fault oracle for the store steps and an `Except` value
  for the browser run result.
-/

namespace NowScreening

/-- Structure `Movie` (main.go lines 81-84): a listing entry, title plus href. -/
structure Movie where
  title : String
  href : String
deriving Repr, DecidableEq

/-- One row of the `movies` table: `(city, title, href, scraped_at)`.
`scraped_at` is the capture timestamp, filled by the store at insert
time; modelled as a natural number (seconds). -/
structure Row where
  city : String
  title : String
  href : String
  scraped_at : Nat
deriving Repr, DecidableEq

/-- The persistent store: the rows of the `movies` table in insertion
order. -/
abbrev DB := List Row

/-- A raw anchor produced by the in-page script of `scrapeMovies`
(main.go lines 159-175): the anchor's text and absolute href. -/
structure Link where
  text : String
  href : String
deriving Repr, DecidableEq

/-- The body of the `GET /movies` reply (main.go lines 211-214 and
230-234): `200 {city, movies, count}` on success, `500 {error}` when
extraction fails. -/
inductive Response where
  | ok (city : String) (movies : List Movie) (count : Nat)
  | serverError (error : String)
deriving Repr, DecidableEq

/-- Stable insertion into a list that is sorted by descending key: the
new element is placed after every element with a strictly larger key and
before every element with a smaller-or-equal key, so elements inserted
later never overtake earlier elements with the same key. -/
def insertDescBy {α : Type} {β : Type} [LinearOrder β] (key : α → β) (a : α) :
    List α → List α
  | [] => [a]
  | x :: xs => if key a < key x then x :: insertDescBy key a xs else a :: x :: xs

/-- Stable insertion sort by descending key: equal-key elements keep
their original relative order. Used for `ORDER BY scraped_at DESC` and
for the descending-score ordering of fuzzy matches. -/
def sortDescBy {α : Type} {β : Type} [LinearOrder β] (key : α → β) :
    List α → List α
  | [] => []
  | x :: xs => insertDescBy key x (sortDescBy key xs)

/-! ### Title/query normalization (`cleanQuery`, main.go lines 72-79) -/

/-- Named HTML character references recognised by the entity decoder. -/
def namedEntities : List (String × Char) :=
  [("amp", '&'), ("lt", '<'), ("gt", '>'), ("quot", '"'),
   ("apos", '\''), ("nbsp", '\u00A0')]

/-- Reads the body of a candidate character reference after `&`: the
characters up to the first `;` (at most `fuel` of them, all
alphanumeric or `#`), together with the remainder of the input. -/
def splitEntity : List Char → Nat → Option (List Char × List Char)
  | _, 0 => none
  | [], _ + 1 => none
  | c :: cs, n + 1 =>
    if c = ';' then some ([], cs)
    else if c.isAlphanum || c = '#' then
      (splitEntity cs n).map fun p => (c :: p.1, p.2)
    else none

/-- Value of one digit in the given base, if valid. -/
def digitVal (base : Nat) (c : Char) : Option Nat :=
  if '0' ≤ c ∧ c ≤ '9' then
    let v := c.toNat - '0'.toNat
    if v < base then some v else none
  else if base = 16 ∧ 'a' ≤ c.toLower ∧ c.toLower ≤ 'f' then
    some (c.toLower.toNat - 'a'.toNat + 10)
  else none

/-- Parses a non-empty digit string in the given base. -/
def parseNatBase (base : Nat) (cs : List Char) : Option Nat :=
  if cs = [] then none
  else cs.foldl (fun acc c => acc.bind fun a => (digitVal base c).map fun d => a * base + d) (some 0)

/-- Decodes one character-reference body (without `&` and `;`): a
numeric reference `#ddd` / `#xhh`, or a named reference. -/
def decodeEntity (name : List Char) : Option (List Char) :=
  match name with
  | '#' :: rest =>
    let n? : Option Nat :=
      match rest with
      | 'x' :: hex => parseNatBase 16 hex
      | 'X' :: hex => parseNatBase 16 hex
      | ds => parseNatBase 10 ds
    n?.bind fun n =>
      if n < 0xd800 ∨ (0xdfff < n ∧ n < 0x110000) then some [Char.ofNat n] else none
  | _ => (namedEntities.find? fun p => p.1.data == name).map fun p => [p.2]

/-- Modelled from the spec: the HTML-entity-decoding step of title and
query normalization ("HTML-entity-decoded" in the data model). The Go
code calls `html.UnescapeString` from the standard library, which is not
part of this repository; this model decodes `;`-terminated named and
numeric character references and leaves everything else unchanged.
`fuel` bounds the scan and is instantiated with the input length. -/
def unescapeAux : Nat → List Char → List Char
  | 0, cs => cs
  | _ + 1, [] => []
  | n + 1, c :: cs =>
    if c = '&' then
      match splitEntity cs 32 with
      | some (name, rest) =>
        match decodeEntity name with
        | some out => out ++ unescapeAux n rest
        | none => c :: unescapeAux n cs
      | none => c :: unescapeAux n cs
    else c :: unescapeAux n cs

/-- Modelled from the spec: HTML-entity decoding of a string (the Go
standard library's `html.UnescapeString`, external to this repository). -/
def unescapeString (s : String) : String :=
  String.mk (unescapeAux s.data.length s.data)

/-- Step `strings.ReplaceAll(htmlDecoded, "\u00A0", " ")` (main.go line 77):
the pattern is the single non-breaking-space character, so the call
replaces that character wherever it occurs. -/
def foldNbsp (s : String) : String :=
  String.mk (s.data.map fun c => if c = '\u00A0' then ' ' else c)

/-- The space characters trimmed by Go's `strings.TrimSpace`
(`unicode.IsSpace`), restricted to the Latin-1 range. -/
def isSpaceChar (c : Char) : Bool :=
  c = ' ' || c = '\t' || c = '\n' || c = '\u000b' || c = '\u000c' ||
    c = '\r' || c = '\u0085' || c = '\u00A0'

/-- Step `strings.TrimSpace` (main.go line 78): drop leading and trailing
space characters. -/
def trimSpace (s : String) : String :=
  String.mk (((s.data.dropWhile isSpaceChar).reverse.dropWhile isSpaceChar).reverse)

/-- Function `cleanQuery` (main.go lines 72-79): HTML-entity decode, fold
non-breaking spaces to plain spaces, trim. Applied both to extracted
titles (line 187) and to incoming queries (line 227). -/
def cleanQuery (query : String) : String :=
  let htmlDecoded := unescapeString query
  let cleaned := foldNbsp htmlDecoded
  trimSpace cleaned

/-! ### Fuzzy matching (`fuzzySearchMovies`, main.go lines 237-255)

`fuzzySearchMovies` delegates to `fuzzy.Find` of the third-party
`github.com/sahilm/fuzzy` package, which is not part of this
repository. The scorer below is therefore modelled from the spec:
"characters of the query must appear, in order, within the title, with
a score rewarding contiguous and early matches; entries with no valid
subsequence match are excluded", matching case-insensitively. -/

/-- Modelled from the spec: greedy case-insensitive subsequence scorer.
Walks the title left to right; a pattern character that matches the
current title character (ignoring case) is consumed. Score: +10 when a
match occurs at the very start of the title (early match), +5 when a
match is adjacent to the previous matched character (contiguous match),
-1 for every title character that is not part of the match. Returns
`none` when the pattern is not a subsequence of the title. -/
def fuzzyGo : List Char → List Char → Nat → Bool → Int → Option Int
  | [], rest, _, _, acc => some (acc - rest.length)
  | _ :: _, [], _, _, _ => none
  | p :: ps, c :: cs, i, prevM, acc =>
    if p.toLower = c.toLower then
      let bonus : Int := (if i = 0 then 10 else 0) + (if prevM then 5 else 0)
      fuzzyGo ps cs (i + 1) true (acc + bonus)
    else
      fuzzyGo (p :: ps) cs (i + 1) false (acc - 1)

/-- Modelled from the spec: the fuzzy score of `pat` against `title`,
or `none` when `pat` is not a case-insensitive subsequence of `title`. -/
def fuzzyMatchScore (pat title : List Char) : Option Int :=
  fuzzyGo pat title 0 false 0

/-- Greedy case-insensitive subsequence test (the success condition of
`fuzzyGo`, stated without scores). -/
def isSubseqCI : List Char → List Char → Bool
  | [], _ => true
  | _ :: _, [] => false
  | p :: ps, c :: cs =>
    if p.toLower = c.toLower then isSubseqCI ps cs else isSubseqCI (p :: ps) cs

/-- One fuzzy match: the index of the matched string in the input list
and its score (`fuzzy.Match`). -/
structure FMatch where
  index : Nat
  score : Int
deriving Repr, DecidableEq

/-- Modelled from the spec: `fuzzy.Find(pattern, data)` of the external
matching library. An empty pattern yields no matches; otherwise every
string admitting a subsequence match is scored, and the matches are
returned in descending score order, ties keeping input order (stable
sort). -/
def fuzzyFind (pattern : String) (data : List String) : List FMatch :=
  if pattern = "" then []
  else
    sortDescBy FMatch.score
      (data.enum.filterMap fun p =>
        (fuzzyMatchScore pattern.data p.2.data).map fun s => FMatch.mk p.1 s)

/-- Function `fuzzySearchMovies` (main.go lines 237-255): collect the titles, run
the fuzzy finder, map the match indexes back to movies. -/
def fuzzySearchMovies (movies : List Movie) (query : String) : List Movie :=
  if movies.length = 0 then movies
  else
    let titles := movies.map Movie.title
    let found := fuzzyFind query titles
    found.filterMap fun m => movies[m.index]?

/-- The query-filtering step of `getMovies` (main.go lines 226-228): a
non-empty raw query is normalized and fuzzy-matched; an empty query
leaves the movies unchanged. -/
def matchMovies (movies : List Movie) (query : String) : List Movie :=
  if query ≠ "" then fuzzySearchMovies movies (cleanQuery query) else movies

/-- Follows the spec's words (§4.4) for comparison with the
implementation: score each entry's title against the normalized query,
exclude entries with no valid subsequence match, order by descending
score with ties broken by original snapshot order (stable sort), and
return the surviving entries. -/
def matchSpec (movies : List Movie) (query : String) : List Movie :=
  (sortDescBy Prod.fst (movies.enum.filterMap fun p =>
    (fuzzyMatchScore (cleanQuery query).data p.2.title.data).map fun s => (s, p.2))).map
    Prod.snd

/-- Proof-side bookkeeping: each matching movie paired with its fuzzy
match (original index and score), in original order. -/
def fuzzyCands (q : String) (movies : List Movie) : List (FMatch × Movie) :=
  movies.enum.filterMap fun p =>
    (fuzzyMatchScore q.data p.2.title.data).map fun s => (FMatch.mk p.1 s, p.2)

/-! ### Cache store (`getMoviesFromDB` / `saveMoviesToDB`,
main.go lines 86-131) -/

/-- The freshness window: `INTERVAL '24 hours'` of the SQL read query,
in seconds. -/
def freshnessWindow : Nat := 24 * 60 * 60

/-- The row set selected by the read query (main.go lines 87-91):
`WHERE city = $1 AND scraped_at > NOW() - INTERVAL '24 hours'`.
Over unbounded timestamps `scraped_at > now - window` is
`now < scraped_at + window`. -/
def freshRows (city : String) (db : DB) (now : Nat) : List Row :=
  db.filter fun r => r.city == city && decide (now < r.scraped_at + freshnessWindow)

/-- Function `getMoviesFromDB` (main.go lines 86-109): the fresh rows for the
city, `ORDER BY scraped_at DESC` (stable on ties), projected to
`(title, href)`. -/
def getMoviesFromDB (city : String) (db : DB) (now : Nat) : List Movie :=
  (sortDescBy Row.scraped_at (freshRows city db now)).map fun r => Movie.mk r.title r.href

/-- The row inserted for one movie (main.go line 123-125); the store
fills `scraped_at` with the current time. -/
def rowOf (city : String) (now : Nat) (m : Movie) : Row :=
  Row.mk city m.title m.href now

/-- The `INSERT` loop of `saveMoviesToDB` (main.go lines 123-128) run
against the transaction-local pending row set. `f` is the fault oracle
for the store round trips, indexed by step number (`k` is the index of
the next insert); a failing insert aborts the loop with `none`. -/
def runInserts (city : String) (now : Nat) (f : Nat → Bool) :
    List Movie → DB → Nat → Option DB
  | [], pending, _ => some pending
  | m :: rest, pending, k =>
    if f k then none
    else runInserts city now f rest (pending ++ [rowOf city now m]) (k + 1)

/-- Whether any insert step among `n` of them, counted from step
index `k`, fails under oracle `f`. -/
def anyInsertFails (f : Nat → Bool) : Nat → Nat → Bool
  | 0, _ => false
  | n + 1, k => f k || anyInsertFails f n (k + 1)

/-- Whether `saveMoviesToDB` for an `n`-entry replace fails at some
step: step 0 is `Begin`, step 1 the `DELETE`, steps `2 .. n+1` the
inserts, step `n+2` the `Commit`. -/
def saveStepFails (f : Nat → Bool) (n : Nat) : Bool :=
  f 0 || f 1 || anyInsertFails f n 2 || f (n + 2)

/-- Function `saveMoviesToDB` (main.go lines 111-131): inside one transaction,
delete every row of the city, insert the new entries, commit. The
deferred `tx.Rollback` discards the transaction-local pending state on
every early-exit path, so the function returns the prior store
unchanged together with an error whenever `Begin`, the `DELETE`, an
`INSERT`, or the `Commit` fails (fault oracle `f`); only a successful
`Commit` publishes the pending state. -/
def saveMoviesToDB (city : String) (movies : List Movie) (db : DB) (now : Nat)
    (f : Nat → Bool) : Except Unit Unit × DB :=
  if f 0 then (Except.error (), db)
  else if f 1 then (Except.error (), db)
  else
    let pending := db.filter fun r => r.city != city
    match runInserts city now f movies pending 2 with
    | none => (Except.error (), db)
    | some pending1 =>
      if f (movies.length + 2) then (Except.error (), db)
      else (Except.ok (), pending1)

/-! ### Extraction (`scrapeMovies`, main.go lines 133-194)

The headless-browser session (`chromedp` allocation, navigation, the
fixed settle delay, the 60-second overall timeout and the in-page DOM
query, lines 134-176) is external I/O; its outcome — either the list of
raw anchors produced by the page script or a failure (navigation error
or timeout) — enters the model as an `Except` parameter. The pure
post-processing of lines 178-193 is embedded below. -/

/-- The post-processing loop of `scrapeMovies` (main.go lines 182-191):
keep anchors with a non-empty href, normalizing each title with
`cleanQuery`. -/
def processLinks (links : List Link) : List Movie :=
  links.filterMap fun l =>
    if l.href ≠ "" then some (Movie.mk (cleanQuery l.text) l.href) else none

/-- Function `scrapeMovies` (main.go lines 133-194) given the outcome of the
browser run: a run failure (navigation error or the 60-second timeout)
propagates as the extraction error; a successful run yields the
processed entries. -/
def scrapeMovies (runResult : Except String (List Link)) : Except String (List Movie) :=
  match runResult with
  | Except.error e => Except.error e
  | Except.ok links => Except.ok (processLinks links)

/-! ### Request pipeline (`getMovies`, main.go lines 196-235) -/

/-- Function `getMovies` (main.go lines 196-235), one request for
`(city, query)` against store `db` at time `now`. `readFails` models a
failed read round trip (logged, treated as an empty cache);
`runResult` is the outcome of the browser run used if extraction is
needed; `f` is the store fault oracle for the persist step. Returns
the HTTP response and the store state after the request. -/
def getMovies (city query : String) (db : DB) (now : Nat) (readFails : Bool)
    (runResult : Except String (List Link)) (f : Nat → Bool) : Response × DB :=
  let movies0 := if readFails then [] else getMoviesFromDB city db now
  if movies0.length > 0 then
    let result := matchMovies movies0 query
    (Response.ok city result result.length, db)
  else
    match scrapeMovies runResult with
    | Except.error e =>
      (Response.serverError ("Failed to scrape movies: " ++ e), db)
    | Except.ok scraped =>
      let db1 := (saveMoviesToDB city scraped db now f).2
      let result := matchMovies scraped query
      (Response.ok city result result.length, db1)

/-! ## Helper lemmas about the stable descending sort -/

theorem mem_insertDescBy {α β : Type} [LinearOrder β] (key : α → β) (a x : α)
    (l : List α) : x ∈ insertDescBy key a l ↔ x = a ∨ x ∈ l := by
  induction l with
  | nil => simp [insertDescBy]
  | cons y ys ih =>
    simp only [insertDescBy]
    by_cases h : key a < key y
    · simp only [if_pos h, List.mem_cons, ih]
      tauto
    · simp only [if_neg h, List.mem_cons]

theorem mem_sortDescBy {α β : Type} [LinearOrder β] (key : α → β) (x : α)
    (l : List α) : x ∈ sortDescBy key l ↔ x ∈ l := by
  induction l with
  | nil => simp [sortDescBy]
  | cons y ys ih =>
    simp only [sortDescBy, mem_insertDescBy, ih, List.mem_cons]

theorem length_insertDescBy {α β : Type} [LinearOrder β] (key : α → β) (a : α)
    (l : List α) : (insertDescBy key a l).length = l.length + 1 := by
  induction l with
  | nil => rfl
  | cons y ys ih =>
    simp only [insertDescBy]
    by_cases h : key a < key y
    · simp [if_pos h, ih]
    · simp [if_neg h]

theorem length_sortDescBy {α β : Type} [LinearOrder β] (key : α → β)
    (l : List α) : (sortDescBy key l).length = l.length := by
  induction l with
  | nil => rfl
  | cons y ys ih => simp [sortDescBy, length_insertDescBy, ih]

theorem insertDescBy_const {α β : Type} [LinearOrder β] (key : α → β) (a : α)
    (l : List α) (k : β) (ha : key a = k) (hl : ∀ x ∈ l, key x = k) :
    insertDescBy key a l = a :: l := by
  cases l with
  | nil => rfl
  | cons y ys =>
    have hy : key y = k := hl y (List.mem_cons_self y ys)
    simp [insertDescBy, ha, hy]

theorem sortDescBy_const {α β : Type} [LinearOrder β] (key : α → β)
    (l : List α) (k : β) (hl : ∀ x ∈ l, key x = k) : sortDescBy key l = l := by
  induction l with
  | nil => rfl
  | cons y ys ih =>
    rw [sortDescBy, ih (fun x hx => hl x (List.mem_cons_of_mem y hx)),
      insertDescBy_const key y ys k (hl y (List.mem_cons_self y ys))
        (fun x hx => hl x (List.mem_cons_of_mem y hx))]

theorem insertDescBy_map {α γ β : Type} [LinearOrder β] (key : γ → β) (f : α → γ)
    (a : α) (l : List α) :
    insertDescBy key (f a) (l.map f) = (insertDescBy (fun x => key (f x)) a l).map f := by
  induction l with
  | nil => rfl
  | cons y ys ih =>
    simp only [List.map_cons, insertDescBy]
    by_cases h : key (f a) < key (f y)
    · simp only [if_pos h, ih, List.map_cons]
    · simp only [if_neg h, List.map_cons]

theorem sortDescBy_map {α γ β : Type} [LinearOrder β] (key : γ → β) (f : α → γ)
    (l : List α) :
    sortDescBy key (l.map f) = (sortDescBy (fun x => key (f x)) l).map f := by
  induction l with
  | nil => rfl
  | cons y ys ih => simp only [List.map_cons, sortDescBy, ih, insertDescBy_map]

theorem pairwise_insertDescBy {α β : Type} [LinearOrder β] (key : α → β) (a : α)
    (l : List α) (h : l.Pairwise fun x y => key y ≤ key x) :
    (insertDescBy key a l).Pairwise fun x y => key y ≤ key x := by
  induction l with
  | nil => simp [insertDescBy]
  | cons y ys ih =>
    simp only [insertDescBy]
    rcases List.pairwise_cons.mp h with ⟨hy, hys⟩
    by_cases hlt : key a < key y
    · rw [if_pos hlt]
      refine List.pairwise_cons.mpr ⟨?_, ih hys⟩
      intro z hz
      rcases (mem_insertDescBy key a z ys).mp hz with rfl | hz'
      · exact le_of_lt hlt
      · exact hy z hz'
    · rw [if_neg hlt]
      refine List.pairwise_cons.mpr ⟨?_, h⟩
      intro z hz
      rcases List.mem_cons.mp hz with rfl | hz'
      · exact le_of_not_lt hlt
      · exact le_trans (hy z hz') (le_of_not_lt hlt)

/-- The stable sort indeed emits keys in descending order. -/
theorem pairwise_sortDescBy {α β : Type} [LinearOrder β] (key : α → β)
    (l : List α) : (sortDescBy key l).Pairwise fun x y => key y ≤ key x := by
  induction l with
  | nil => simp [sortDescBy]
  | cons y ys ih => exact pairwise_insertDescBy key y _ ih

/-! ## Helper lemmas about the fuzzy matcher -/

/-- The scorer succeeds exactly when the greedy case-insensitive
subsequence test succeeds; the bookkeeping arguments are irrelevant. -/
theorem fuzzyGo_isSome (ps cs : List Char) (i : Nat) (b : Bool) (acc : Int) :
    (fuzzyGo ps cs i b acc).isSome = isSubseqCI ps cs := by
  induction cs generalizing ps i b acc with
  | nil => cases ps <;> simp [fuzzyGo, isSubseqCI]
  | cons c cs ih =>
    cases ps with
    | nil => simp [fuzzyGo, isSubseqCI]
    | cons p ps' =>
      simp only [fuzzyGo, isSubseqCI]
      by_cases h : p.toLower = c.toLower
      · simp only [if_pos h, ih]
      · simp only [if_neg h, ih]

/-- The greedy case-insensitive subsequence test decides exactly the
in-order (subsequence) occurrence of the lower-cased pattern inside the
lower-cased text. -/
theorem isSubseqCI_iff (ps cs : List Char) :
    isSubseqCI ps cs = true ↔ (ps.map Char.toLower).Sublist (cs.map Char.toLower) := by
  induction cs generalizing ps with
  | nil =>
    cases ps with
    | nil => simp [isSubseqCI]
    | cons p ps' => simp [isSubseqCI]
  | cons c cs ih =>
    cases ps with
    | nil => simp [isSubseqCI, List.nil_sublist]
    | cons p ps' =>
      simp only [isSubseqCI, List.map_cons]
      by_cases h : p.toLower = c.toLower
      · rw [if_pos h, ih, h, List.cons_sublist_cons]
      · rw [if_neg h, ih]
        constructor
        · intro hs
          exact hs.cons c.toLower
        · intro hs
          simp only [List.map_cons] at hs ⊢
          generalize hx : p.toLower = x at hs h ⊢
          generalize hy : c.toLower = y at hs h
          cases hs with
          | cons _ hs' => exact hs'
          | cons₂ _ hs' => exact absurd rfl h

/-- The fuzzy finder on the title list is the first projection of the
sorted candidate list. -/
theorem fuzzyFind_titles (q : String) (movies : List Movie) (hq : q ≠ "") :
    fuzzyFind q (movies.map Movie.title) =
      (sortDescBy (fun p => p.1.score) (fuzzyCands q movies)).map Prod.fst := by
  unfold fuzzyFind fuzzyCands
  rw [if_neg hq, List.enum_map, List.filterMap_map,
    ← sortDescBy_map FMatch.score Prod.fst
      (movies.enum.filterMap fun p =>
        (fuzzyMatchScore q.data p.2.title.data).map fun s => (FMatch.mk p.1 s, p.2)),
    List.map_filterMap]
  congr 1
  congr 1
  funext p
  simp only [Function.comp, Option.map_map]
  rfl

/-- Every candidate's index points back at its own movie. -/
theorem fuzzyCands_lookup (q : String) (movies : List Movie) :
    ∀ p ∈ fuzzyCands q movies, movies[p.1.index]? = some p.2 := by
  intro p hp
  rcases List.mem_filterMap.mp hp with ⟨a, ha, hfa⟩
  rcases Option.map_eq_some'.mp hfa with ⟨s, hs, rfl⟩
  have : (a.1, a.2) ∈ movies.enum := by
    cases a
    exact ha
  exact List.mk_mem_enum_iff_getElem?.mp this

theorem filterMap_lookup_eq_map_snd (movies : List Movie)
    (l : List (FMatch × Movie)) (h : ∀ p ∈ l, movies[p.1.index]? = some p.2) :
    (l.map Prod.fst).filterMap (fun m => movies[m.index]?) = l.map Prod.snd := by
  induction l with
  | nil => rfl
  | cons x xs ih =>
    simp only [List.map_cons, List.filterMap_cons, h x (List.mem_cons_self x xs)]
    exact congrArg _ (ih fun p hp => h p (List.mem_cons_of_mem x hp))

/-- Function `fuzzySearchMovies` equals the spec-side matcher: the index
plumbing of main.go lines 249-252 recovers exactly the matched moviesic
in sorted order. -/
theorem fuzzySearchMovies_eq (movies : List Movie) (q : String) (hq : q ≠ "") :
    fuzzySearchMovies movies q =
      (sortDescBy (fun p => p.1.score) (fuzzyCands q movies)).map Prod.snd := by
  by_cases hm : movies.length = 0
  · rw [List.length_eq_zero] at hm
    subst hm
    rfl
  · show (if movies.length = 0 then movies
        else (fuzzyFind q (movies.map Movie.title)).filterMap fun m => movies[m.index]?) = _
    rw [if_neg hm, fuzzyFind_titles q movies hq,
      filterMap_lookup_eq_map_snd movies _ ?_]
    intro p hp
    exact fuzzyCands_lookup q movies p ((mem_sortDescBy _ p _).mp hp)

/-- Definition `matchSpec` is the second projection of the same sorted candidate
list. -/
theorem matchSpec_eq_cands (movies : List Movie) (query : String) :
    matchSpec movies query =
      (sortDescBy (fun p => p.1.score) (fuzzyCands (cleanQuery query) movies)).map
        Prod.snd := by
  unfold matchSpec fuzzyCands
  rw [show (movies.enum.filterMap fun p =>
        (fuzzyMatchScore (cleanQuery query).data p.2.title.data).map fun s => (s, p.2)) =
      (movies.enum.filterMap fun p =>
        (fuzzyMatchScore (cleanQuery query).data p.2.title.data).map fun s =>
          (FMatch.mk p.1 s, p.2)).map (fun p => (p.1.score, p.2)) by
    rw [List.map_filterMap]
    congr 1
    funext p
    simp [Option.map_map]
    rfl]
  rw [sortDescBy_map, List.map_map]
  rfl

/-! ## Helper lemmas about the store -/

/-- The insert loop aborts exactly when some insert step fails, and
otherwise appends the new rows in order. -/
theorem runInserts_eq (city : String) (now : Nat) (f : Nat → Bool)
    (movies : List Movie) (pending : DB) (k : Nat) :
    runInserts city now f movies pending k =
      if anyInsertFails f movies.length k then none
      else some (pending ++ movies.map (rowOf city now)) := by
  induction movies generalizing pending k with
  | nil => simp [runInserts, anyInsertFails]
  | cons m rest ih =>
    simp only [runInserts, List.length_cons, anyInsertFails, List.map_cons]
    by_cases hf : f k
    · simp [hf]
    · simp [hf, ih, List.append_assoc]

/-- Full characterization of `saveMoviesToDB`: any failing step returns
an error with the prior store unchanged; otherwise the other cities'
rows are kept and the city's rows are exactly the new entries. -/
theorem saveMoviesToDB_eq (city : String) (movies : List Movie) (db : DB)
    (now : Nat) (f : Nat → Bool) :
    saveMoviesToDB city movies db now f =
      if saveStepFails f movies.length then (Except.error (), db)
      else (Except.ok (),
        (db.filter fun r => r.city != city) ++ movies.map (rowOf city now)) := by
  simp only [saveMoviesToDB, saveStepFails, runInserts_eq]
  by_cases h0 : f 0
  · simp [h0]
  · by_cases h1 : f 1
    · simp [h0, h1]
    · by_cases h2 : anyInsertFails f movies.length 2
      · simp [h0, h1, h2]
      · by_cases h3 : f (movies.length + 2) <;> simp [h0, h1, h2, h3]

/-- On rows whose city differs, the read filter is false. -/
theorem freshRows_other_city (city : String) (db : DB) (now : Nat) :
    freshRows city (db.filter fun r => r.city != city) now = [] := by
  unfold freshRows
  rw [List.filter_eq_nil_iff]
  intro r hr
  have hne := (List.mem_filter.mp hr).2
  simp only [bne_iff_ne, ne_eq] at hne
  simp [hne]

/-- Rows just written at `t0` are all fresh at any `t1 < t0 + window`. -/
theorem freshRows_new_rows (city : String) (ms : List Movie) (t0 t1 : Nat)
    (h1 : t1 < t0 + freshnessWindow) :
    freshRows city (ms.map (rowOf city t0)) t1 = ms.map (rowOf city t0) := by
  unfold freshRows
  rw [List.filter_eq_self]
  intro r hr
  rcases List.mem_map.mp hr with ⟨m, hm, rfl⟩
  simp [rowOf, h1]

/-- Reading back right after a successful replace returns exactly the
replaced entries, in insertion order. -/
theorem getMoviesFromDB_after_save (city : String) (ms : List Movie) (db : DB)
    (t0 t1 : Nat) (h1 : t1 < t0 + freshnessWindow) :
    getMoviesFromDB city
        ((db.filter fun r => r.city != city) ++ ms.map (rowOf city t0)) t1 = ms := by
  unfold getMoviesFromDB
  rw [show freshRows city ((db.filter fun r => r.city != city) ++ ms.map (rowOf city t0)) t1 =
      freshRows city (db.filter fun r => r.city != city) t1 ++
        freshRows city (ms.map (rowOf city t0)) t1 from List.filter_append _ _,
    freshRows_other_city, freshRows_new_rows city ms t0 t1 h1, List.nil_append,
    sortDescBy_const Row.scraped_at _ t0 ?_, List.map_map]
  · exact List.map_id ms
  · intro x hx
    rcases List.mem_map.mp hx with ⟨m, hm, rfl⟩
    rfl

/-- A fresh row for the city makes the cache read non-empty. -/
theorem getMoviesFromDB_ne_nil (city : String) (db : DB) (now : Nat) (r : Row)
    (hr : r ∈ db) (hc : r.city = city) (hf : now < r.scraped_at + freshnessWindow) :
    getMoviesFromDB city db now ≠ [] := by
  unfold getMoviesFromDB
  intro h
  have hlen := congrArg List.length h
  rw [List.length_map, length_sortDescBy, List.length_nil,
    List.length_eq_zero] at hlen
  unfold freshRows at hlen
  rw [List.filter_eq_nil_iff] at hlen
  exact hlen r hr (by simp [hc, hf])

/-- The read result depends on the clock only through the freshness of
the city's rows: if every row fresh at `t0` is still fresh at `t1`
(with `t0 ≤ t1`), the reads at the two times agree. -/
theorem getMoviesFromDB_time_congr (city : String) (db : DB) (t0 t1 : Nat)
    (h01 : t0 ≤ t1)
    (h2 : ∀ r ∈ db, r.city = city → t0 < r.scraped_at + freshnessWindow →
      t1 < r.scraped_at + freshnessWindow) :
    getMoviesFromDB city db t1 = getMoviesFromDB city db t0 := by
  unfold getMoviesFromDB freshRows
  rw [List.filter_congr ?_]
  intro r hr
  by_cases hc : r.city = city
  · by_cases hf : t0 < r.scraped_at + freshnessWindow
    · simp [hc, hf, h2 r hr hc hf]
    · have hf1 : ¬ t1 < r.scraped_at + freshnessWindow := fun hlt =>
        hf (lt_of_le_of_lt h01 hlt)
      simp [hf, hf1]
  · have hb : (r.city == city) = false := beq_eq_false_iff_ne.mpr hc
    rw [hb]
    simp

/-! ## The claims -/

/-- C1: For every request(city): if the Cache Store holds a snapshot for
that city with now − capturedAt < 24 hours (fresh), the request is
served from the cache with no extraction and no cache write; extraction
runs only when the snapshot is absent or stale. Formalized: with a
fresh row for the city in the store and a successful read, the response
is built from the cached snapshot and the store is returned unchanged,
uniformly in the extraction outcome and the persist fault oracle — so
neither extraction nor a cache write can influence the request. -/
theorem c1_fresh_cache_served (city query : String) (db : DB) (now : Nat)
    (run1 run2 : Except String (List Link)) (f1 f2 : Nat → Bool) (r : Row)
    (hr : r ∈ db) (hc : r.city = city)
    (hf : now < r.scraped_at + freshnessWindow) :
    getMovies city query db now false run1 f1 =
      (Response.ok city (matchMovies (getMoviesFromDB city db now) query)
        (matchMovies (getMoviesFromDB city db now) query).length, db) ∧
    getMovies city query db now false run1 f1 =
      getMovies city query db now false run2 f2 := by
  have hne := getMoviesFromDB_ne_nil city db now r hr hc hf
  have key : ∀ (run : Except String (List Link)) (f : Nat → Bool),
      getMovies city query db now false run f =
        (Response.ok city (matchMovies (getMoviesFromDB city db now) query)
          (matchMovies (getMoviesFromDB city db now) query).length, db) := by
    intro run f
    simp only [getMovies, Bool.false_eq_true, if_false]
    rw [if_pos (List.length_pos.mpr hne)]
  exact ⟨key run1 f1, (key run1 f1).trans (key run2 f2).symm⟩

/-- Witness for C1: a store holding one fresh row for the city; the
request is answered from it, identically under an extraction result and
under an extraction failure with a failing persist oracle. -/
theorem c1_witness :
    getMovies "cuttack" "" [⟨"cuttack", "Ballerina", "hb", 100⟩] 100 false
        (Except.ok []) (fun _ => false) =
      (Response.ok "cuttack"
        (matchMovies (getMoviesFromDB "cuttack" [⟨"cuttack", "Ballerina", "hb", 100⟩] 100) "")
        (matchMovies (getMoviesFromDB "cuttack" [⟨"cuttack", "Ballerina", "hb", 100⟩] 100) "").length,
       [⟨"cuttack", "Ballerina", "hb", 100⟩]) ∧
    getMovies "cuttack" "" [⟨"cuttack", "Ballerina", "hb", 100⟩] 100 false
        (Except.ok []) (fun _ => false) =
      getMovies "cuttack" "" [⟨"cuttack", "Ballerina", "hb", 100⟩] 100 false
        (Except.error "down") (fun _ => true) :=
  c1_fresh_cache_served "cuttack" "" [⟨"cuttack", "Ballerina", "hb", 100⟩] 100
    (Except.ok []) (Except.error "down") (fun _ => false) (fun _ => true)
    ⟨"cuttack", "Ballerina", "hb", 100⟩ (by decide) rfl (by decide)

/-- C2: replace(city, entries) is all-or-nothing: if any step fails
partway through a multi-entry replace, the previously stored snapshot
for that city remains fully intact and fully readable (no partial row
set); on success, all prior entries for the city are replaced by
exactly the new set as one atomic unit. Formalized: under every fault
oracle, `saveMoviesToDB` either errors with the store unchanged or
succeeds with the city's rows being exactly the new entries and every
other row kept; in particular the city's row set after the call is the
old one on failure and the new one on success, never a mixture. -/
theorem c2_replace_atomic (city : String) (movies : List Movie) (db : DB)
    (now : Nat) (f : Nat → Bool) :
    (saveMoviesToDB city movies db now f =
      if saveStepFails f movies.length then (Except.error (), db)
      else (Except.ok (),
        (db.filter fun r => r.city != city) ++ movies.map (rowOf city now))) ∧
    ((saveMoviesToDB city movies db now f).2.filter (fun r => r.city == city) =
      if saveStepFails f movies.length then db.filter (fun r => r.city == city)
      else movies.map (rowOf city now)) := by
  refine ⟨saveMoviesToDB_eq city movies db now f, ?_⟩
  rw [saveMoviesToDB_eq]
  by_cases h : saveStepFails f movies.length
  · rw [if_pos h, if_pos h]
  · rw [if_neg h, if_neg h]
    show ((db.filter fun r => r.city != city) ++ movies.map (rowOf city now)).filter _ = _
    rw [List.filter_append,
      show (db.filter fun r => r.city != city).filter (fun r => r.city == city) = []
        from ?_,
      List.nil_append, List.filter_eq_self.mpr ?_]
    · intro a ha
      rcases List.mem_map.mp ha with ⟨m, hm, rfl⟩
      simp [rowOf]
    · rw [List.filter_eq_nil_iff]
      intro a ha
      have hne := (List.mem_filter.mp ha).2
      simp only [bne_iff_ne, ne_eq] at hne
      simp [hne]

/-- C3: If extraction fails (navigation failure or the 60-second
timeout), the request fails with a propagated ExtractionError (HTTP 500
with an error body), no stale cached snapshot is served as a fallback,
and the cache for that city is left untouched (a subsequent read
returns the prior snapshot, or absent if none existed). Formalized:
when the fresh read is empty (snapshot absent or stale — stale rows may
well exist in `db`) and the browser run fails, `getMovies` answers with
the 500 error body and returns the store unchanged. -/
theorem c3_extraction_error_propagates (city query : String) (db : DB)
    (now : Nat) (e : String) (f : Nat → Bool)
    (h : getMoviesFromDB city db now = []) :
    getMovies city query db now false (Except.error e) f =
      (Response.serverError ("Failed to scrape movies: " ++ e), db) := by
  simp only [getMovies, Bool.false_eq_true, if_false, h, List.length_nil,
    gt_iff_lt, lt_irrefl, scrapeMovies]

/-- Witness for C3: a store holding only a stale row for the city; the
failed extraction yields the 500 body and the stale row is untouched
(and was not served). -/
theorem c3_witness :
    getMovies "cuttack" "" [⟨"cuttack", "Old", "h", 0⟩] 100000 false
        (Except.error "timeout") (fun _ => false) =
      (Response.serverError ("Failed to scrape movies: " ++ "timeout"),
       [⟨"cuttack", "Old", "h", 0⟩]) :=
  c3_extraction_error_propagates "cuttack" "" [⟨"cuttack", "Old", "h", 0⟩] 100000
    "timeout" (fun _ => false) (by decide)

/-- C4: After a successful extraction, a failure of the cache persist
step does not fail the request: the freshly extracted (unpersisted)
entries are still served to the caller with a success response.
Formalized: on a cache miss with a successful browser run, even when
the persist step fails under the fault oracle, the response is the 200
body built from the freshly extracted entries. -/
theorem c4_persist_failure_still_serves (city query : String) (db : DB)
    (now : Nat) (links : List Link) (f : Nat → Bool)
    (h : getMoviesFromDB city db now = [])
    (hsave : (saveMoviesToDB city (processLinks links) db now f).1 =
      Except.error ()) :
    (getMovies city query db now false (Except.ok links) f).1 =
      Response.ok city (matchMovies (processLinks links) query)
        (matchMovies (processLinks links) query).length := by
  simp only [getMovies, Bool.false_eq_true, if_false, h, List.length_nil,
    gt_iff_lt, lt_irrefl, scrapeMovies]

/-- Witness for C4: empty store, one extracted entry, an oracle failing
every store step: the request still answers 200 with that entry. -/
theorem c4_witness :
    (getMovies "cuttack" "" [] 0 false (Except.ok [⟨"Ballerina", "hb"⟩])
        (fun _ => true)).1 =
      Response.ok "cuttack" (matchMovies (processLinks [⟨"Ballerina", "hb"⟩]) "")
        (matchMovies (processLinks [⟨"Ballerina", "hb"⟩]) "").length :=
  c4_persist_failure_still_serves "cuttack" "" [] 0 [⟨"Ballerina", "hb"⟩]
    (fun _ => true) (by decide) (by rfl)

/-- A non-empty fresh read short-circuits the pipeline: cached answer,
store unchanged, extraction and persist parameters unused. -/
theorem getMovies_cache_hit (city query : String) (db : DB) (now : Nat)
    (run : Except String (List Link)) (f : Nat → Bool)
    (hne : getMoviesFromDB city db now ≠ []) :
    getMovies city query db now false run f =
      (Response.ok city (matchMovies (getMoviesFromDB city db now) query)
        (matchMovies (getMoviesFromDB city db now) query).length, db) := by
  simp only [getMovies, Bool.false_eq_true, if_false]
  rw [if_pos (List.length_pos.mpr hne)]

/-- An empty fresh read with a successful browser run extracts,
persists (best effort) and serves the extracted entries. -/
theorem getMovies_cache_miss_ok (city query : String) (db : DB) (now : Nat)
    (links : List Link) (f : Nat → Bool)
    (h : getMoviesFromDB city db now = []) :
    getMovies city query db now false (Except.ok links) f =
      (Response.ok city (matchMovies (processLinks links) query)
        (matchMovies (processLinks links) query).length,
       (saveMoviesToDB city (processLinks links) db now f).2) := by
  simp only [getMovies, Bool.false_eq_true, if_false, h, List.length_nil,
    gt_iff_lt, lt_irrefl, scrapeMovies]

/-- The all-clear oracle never fails an insert step. -/
theorem anyInsertFails_false (n k : Nat) :
    anyInsertFails (fun _ => false) n k = false := by
  induction n generalizing k with
  | zero => rfl
  | succ n ih => simp [anyInsertFails, ih]

/-- The all-clear oracle never fails a save. -/
theorem saveStepFails_false (n : Nat) :
    saveStepFails (fun _ => false) n = false := by
  simp [saveStepFails, anyInsertFails_false]

/-- C5, counterexample to the claim as stated: two fault-free calls for
the same city at the same instant (certainly within the freshness
window), both with no query. The first call's extraction returns zero
entries, so the persist step stores zero rows and the cache stays
effectively absent; the second call therefore extracts again (its
outcome now matters) and its response differs from the first's. -/
theorem c5_counterexample :
    ¬ ((getMovies "cuttack" ""
          ((getMovies "cuttack" "" [] 0 false (Except.ok []) (fun _ => false)).2)
          0 false (Except.ok [⟨"New Movie", "hn"⟩]) (fun _ => false)).1 =
        (getMovies "cuttack" "" [] 0 false (Except.ok []) (fun _ => false)).1) := by
  decide

/-- C5, amended: calling the pipeline twice within the freshness window
for the same city, with no query, performs extraction at most once and
gives the second call a response equal to the first's (same entries,
same order) — provided both cache reads succeed, the first call's
extraction (if it runs) succeeds with a non-empty entry list, its
persist succeeds, and every row fresh at the first call is still fresh
at the second. Formalized: the second call returns literally the first
call's response-store pair, uniformly in its own extraction outcome and
persist oracle (so it extracts nothing and writes nothing). -/
theorem c5_idempotent_amended (city : String) (db : DB) (t0 t1 : Nat)
    (links : List Link) (run' : Except String (List Link)) (f' : Nat → Bool)
    (hms : processLinks links ≠ [])
    (h01 : t0 ≤ t1) (h1 : t1 < t0 + freshnessWindow)
    (h2 : ∀ r ∈ db, r.city = city → t0 < r.scraped_at + freshnessWindow →
      t1 < r.scraped_at + freshnessWindow) :
    getMovies city ""
        ((getMovies city "" db t0 false (Except.ok links) (fun _ => false)).2)
        t1 false run' f' =
      getMovies city "" db t0 false (Except.ok links) (fun _ => false) := by
  by_cases hc : getMoviesFromDB city db t0 = []
  · have hfirst : getMovies city "" db t0 false (Except.ok links) (fun _ => false) =
        (Response.ok city (matchMovies (processLinks links) "")
          (matchMovies (processLinks links) "").length,
         (db.filter fun r => r.city != city) ++
           (processLinks links).map (rowOf city t0)) := by
      rw [getMovies_cache_miss_ok city "" db t0 links (fun _ => false) hc,
        saveMoviesToDB_eq, if_neg (by simp [saveStepFails_false])]
    have hread : getMoviesFromDB city
        ((db.filter fun r => r.city != city) ++
          (processLinks links).map (rowOf city t0)) t1 = processLinks links :=
      getMoviesFromDB_after_save city (processLinks links) db t0 t1 h1
    rw [hfirst]
    show getMovies city ""
        ((db.filter fun r => r.city != city) ++
          (processLinks links).map (rowOf city t0)) t1 false run' f' = _
    rw [getMovies_cache_hit city "" _ t1 run' f' (fun hnil => hms (hread ▸ hnil)),
      hread]
  · have hsecond : (getMovies city "" db t0 false (Except.ok links)
        (fun _ => false)).2 = db := by
      rw [getMovies_cache_hit city "" db t0 (Except.ok links) (fun _ => false) hc]
    have hread : getMoviesFromDB city db t1 = getMoviesFromDB city db t0 :=
      getMoviesFromDB_time_congr city db t0 t1 h01 h2
    rw [hsecond,
      getMovies_cache_hit city "" db t1 run' f' (fun hnil => hc (hread ▸ hnil)),
      hread,
      getMovies_cache_hit city "" db t0 (Except.ok links) (fun _ => false) hc]

/-- Witness for the amended C5: empty store, first call extracts one
entry and persists it; the second call at the same instant answers
identically even though its own extraction parameter is a failure and
its persist oracle fails everything — it never reaches either. -/
theorem c5_witness :
    getMovies "cuttack" ""
        ((getMovies "cuttack" "" [] 0 false (Except.ok [⟨"Ballerina", "hb"⟩])
          (fun _ => false)).2)
        0 false (Except.error "down") (fun _ => true) =
      getMovies "cuttack" "" [] 0 false (Except.ok [⟨"Ballerina", "hb"⟩])
        (fun _ => false) :=
  c5_idempotent_amended "cuttack" [] 0 0 [⟨"Ballerina", "hb"⟩]
    (Except.error "down") (fun _ => true) (by decide) (by decide) (by decide)
    (by simp)

/-- C6: For every entry list and non-empty normalized query, match
excludes every entry whose title has no in-order (subsequence)
occurrence of the query's characters, and orders the remaining entries
by descending fuzzy score with ties broken by original snapshot order
(stable sort). Formalized: the implemented matcher equals `matchSpec`
(score, exclude, stable descending sort as one expression), and an
entry is scored (kept) exactly when the lower-cased normalized query is
a sublist — an in-order occurrence — of its lower-cased title. -/
theorem c6_match_excludes_and_ranks (movies : List Movie) (query : String)
    (hq : cleanQuery query ≠ "") :
    matchMovies movies query = matchSpec movies query ∧
    ∀ t : String, ((fuzzyMatchScore (cleanQuery query).data t.data).isSome = true ↔
      ((cleanQuery query).data.map Char.toLower).Sublist
        (t.data.map Char.toLower)) := by
  constructor
  · have hq' : query ≠ "" := fun h => hq (by rw [h]; rfl)
    rw [matchSpec_eq_cands]
    unfold matchMovies
    rw [if_pos hq']
    exact fuzzySearchMovies_eq movies (cleanQuery query) hq
  · intro t
    rw [fuzzyMatchScore, fuzzyGo_isSome, isSubseqCI_iff]

/-- Witness for C6 on a concrete snapshot and query. -/
theorem c6_witness :
    cleanQuery "ball" ≠ "" ∧
    (matchMovies [⟨"Ballerina", "b"⟩, ⟨"Sinners", "s"⟩] "ball" =
        matchSpec [⟨"Ballerina", "b"⟩, ⟨"Sinners", "s"⟩] "ball" ∧
      ∀ t : String, ((fuzzyMatchScore (cleanQuery "ball").data t.data).isSome = true ↔
        ((cleanQuery "ball").data.map Char.toLower).Sublist
          (t.data.map Char.toLower)) ) :=
  ⟨by decide,
    c6_match_excludes_and_ranks [⟨"Ballerina", "b"⟩, ⟨"Sinners", "s"⟩] "ball"
      (by decide)⟩

/-- C7: Given entries titled ["Ballerina", "Sinners", "The Conjuring"]
and the query "balerina" (one character dropped), the matcher's
top-ranked result is "Ballerina". ("balerina" is a subsequence of
"Ballerina" and of neither other title, so "Ballerina" is the sole —
hence top — match.) -/
theorem c7_balerina_top_ranked :
    (matchMovies [⟨"Ballerina", "hb"⟩, ⟨"Sinners", "hs"⟩, ⟨"The Conjuring", "hc"⟩]
        "balerina").head? = some ⟨"Ballerina", "hb"⟩ := by
  decide

/-- C9: The matcher is deterministic: for every entry list E and query
q, calling match(E, q) twice returns identical ordered output (the
embedded matcher is a pure function, so the two runs are literally the
same value); and for every E, match(E, "") returns E unchanged in its
original order (the empty query is the identity, main.go line 226). -/
theorem c9_matcher_deterministic_empty_identity (E : List Movie) (q : String) :
    matchMovies E q = matchMovies E q ∧ matchMovies E "" = E :=
  ⟨rfl, by simp [matchMovies]⟩

/-- C8: Title normalization (HTML-entity decoding, folding non-breaking
spaces to plain spaces, trimming) is applied identically to extracted
titles before storage and to incoming queries before matching; in
particular, a stored title written with non-breaking spaces matches the
same query written with plain spaces after normalization of both sides.
Formalized: every stored title is `cleanQuery` of the raw anchor text;
every non-empty query is matched as `cleanQuery` of the raw query —
the same function; and the spec's example goes through end to end. -/
theorem c8_normalization_applied_identically (links : List Link) (E : List Movie)
    (q : String) (hq : q ≠ "") :
    processLinks links = ((links.filter fun l => l.href != "").map
        fun l => Movie.mk (cleanQuery l.text) l.href) ∧
    matchMovies E q = fuzzySearchMovies E (cleanQuery q) ∧
    cleanQuery "How\u00A0to\u00A0Train\u00A0Your\u00A0Dragon" =
      "How to Train Your Dragon" ∧
    cleanQuery "How to Train Your Dragon" = "How to Train Your Dragon" ∧
    matchMovies [⟨cleanQuery "How\u00A0to\u00A0Train\u00A0Your\u00A0Dragon", "h"⟩]
        "How to Train Your Dragon" =
      [⟨"How to Train Your Dragon", "h"⟩] := by
  refine ⟨?_, ?_, by decide, by decide, by decide⟩
  · induction links with
    | nil => rfl
    | cons l ls ih =>
      simp only [processLinks, List.filterMap_cons, List.filter_cons] at ih ⊢
      simp only [ne_eq, ite_not] at ih ⊢
      by_cases hl : l.href = ""
      · simp [hl, ih]
      · simp [hl, ih]
  · unfold matchMovies
    rw [if_pos hq]

/-- Witness for C8: anchors with padded text and one empty href, and a
concrete non-empty query. -/
theorem c8_witness :
    ("a" : String) ≠ "" ∧
    (processLinks [⟨" Ballerina ", "hb"⟩, ⟨"skip", ""⟩] =
        (([⟨" Ballerina ", "hb"⟩, ⟨"skip", ""⟩] : List Link).filter
            fun l => l.href != "").map
          (fun l => Movie.mk (cleanQuery l.text) l.href) ∧
      matchMovies [⟨"Ballerina", "hb"⟩] "a" =
        fuzzySearchMovies [⟨"Ballerina", "hb"⟩] (cleanQuery "a") ∧
      cleanQuery "How\u00A0to\u00A0Train\u00A0Your\u00A0Dragon" =
        "How to Train Your Dragon" ∧
      cleanQuery "How to Train Your Dragon" = "How to Train Your Dragon" ∧
      matchMovies [⟨cleanQuery "How\u00A0to\u00A0Train\u00A0Your\u00A0Dragon", "h"⟩]
          "How to Train Your Dragon" =
        [⟨"How to Train Your Dragon", "h"⟩]) :=
  ⟨by decide,
    c8_normalization_applied_identically [⟨" Ballerina ", "hb"⟩, ⟨"skip", ""⟩]
      [⟨"Ballerina", "hb"⟩] "a" (by decide)⟩

/-- C10: The query parameter never affects what is written to the
cache: when a request triggers extraction, the full extracted entry
list is persisted before any query filtering is applied, so two
requests differing only in their query produce the same cache state for
the city. Formalized: the post-request store is the same function of
everything but the query; and on a cache miss with successful
extraction it is exactly the store produced by persisting the full
extracted entry list. -/
theorem c10_query_never_affects_cache (city q1 q2 q : String) (db : DB)
    (now : Nat) (rf : Bool) (run : Except String (List Link)) (f : Nat → Bool)
    (links : List Link) (h : getMoviesFromDB city db now = []) :
    (getMovies city q1 db now rf run f).2 = (getMovies city q2 db now rf run f).2 ∧
    (getMovies city q db now false (Except.ok links) f).2 =
      (saveMoviesToDB city (processLinks links) db now f).2 := by
  constructor
  · simp only [getMovies]
    by_cases hl : (if rf = true then [] else getMoviesFromDB city db now).length > 0
    · rw [if_pos hl, if_pos hl]
    · rw [if_neg hl, if_neg hl]
      cases hsc : scrapeMovies run
      · simp only [hsc]
      · simp only [hsc]
  · rw [getMovies_cache_miss_ok city q db now links f h]

/-- Witness for C10: two queries against an empty store with one
extracted entry yield the same post-request store, which is the persist
result of the full extracted list. -/
theorem c10_witness :
    ((getMovies "cuttack" "a" [] 0 false (Except.ok [⟨"Ballerina", "hb"⟩])
        (fun _ => false)).2 =
      (getMovies "cuttack" "" [] 0 false (Except.ok [⟨"Ballerina", "hb"⟩])
        (fun _ => false)).2) ∧
    ((getMovies "cuttack" "zz" [] 0 false (Except.ok [⟨"Ballerina", "hb"⟩])
        (fun _ => false)).2 =
      (saveMoviesToDB "cuttack" (processLinks [⟨"Ballerina", "hb"⟩]) [] 0
        (fun _ => false)).2) :=
  c10_query_never_affects_cache "cuttack" "a" "" "zz" [] 0 false
    (Except.ok [⟨"Ballerina", "hb"⟩]) (fun _ => false) [⟨"Ballerina", "hb"⟩]
    (by decide)

end NowScreening
